import Mathlib

/-!
Verification development for the receipt-text extraction engine in
`backend/app/services/ocr_service.py`.

The Python extractors work by applying a fixed collection of regular
expressions (module `re`) to the recognized text.  We embed them shallowly:

* texts are `List Char`;
* each Python regex is translated into a small regex AST (`Re`) whose
  backtracking matcher `mre` mirrors the `re` module's leftmost,
  greedy/lazy backtracking semantics for exactly the constructs the
  source patterns use (character classes, counted repetition over a
  class, repetition of a fixed-width chunk, sequencing, alternation with
  leftmost preference, optional sub-patterns, capture groups, `$`);
* `reMatch` is `re.match` (anchored prefix match), `reSearch` is
  `re.search` (first position whose suffix matches), `findAll` is
  `re.findall` (non-overlapping left-to-right matches);
* `Decimal` values are embedded as `Nat`: every numeric string the code
  feeds to `Decimal` consists of digits `0-9` only (the captured text is
  drawn from the class `[\d.,]` and the code strips `.` and `,` before
  parsing), so the parsed value is a natural number; the empty cleaned
  string makes `Decimal` raise, embedded as `none`;
* Python floats for the confidence score are embedded as exact `Rat`;
  the only confidence values the claims touch are exact literals (`0`),
  where float and rational semantics agree;
* `date.today()` (impure) is embedded as an explicit `today` parameter
  threaded into the orchestrator functions.
-/

set_option maxRecDepth 10000

namespace OcrService

/-! ### Character classes used by the source patterns -/

/-- Python `\s` (ASCII range; all the texts involved are ASCII). -/
def isWsCh (c : Char) : Bool :=
  c == ' ' || c == '\t' || c == '\n' || c == '\r' || c == '\x0b' || c == '\x0c'

/-- Python `\d` (ASCII digits). -/
def isDigitCh (c : Char) : Bool := c.isDigit

/-- The class `[\d.,]`. -/
def isNumCh (c : Char) : Bool := c.isDigit || c == '.' || c == ','

/-- The class `[A-Za-z]`. -/
def isAlphaCh (c : Char) : Bool := c.isAlpha

/-- The class `[A-Za-z\s]`. -/
def isAlphaWsCh (c : Char) : Bool := isAlphaCh c || isWsCh c

/-- The class `[:\s]`. -/
def isColonWsCh (c : Char) : Bool := c == ':' || isWsCh c

/-- The two-character class of a slash or a dash (the date separators). -/
def isSlashDashCh (c : Char) : Bool := c == '/' || c == '-'

/-- The class `[.,]`. -/
def isDotCommaCh (c : Char) : Bool := c == '.' || c == ','

/-- Python `.` (any character except a newline; `re.DOTALL` is never set). -/
def isDotCh (c : Char) : Bool := c != '\n'

/-- The class `[\d\s.,\-=*]` of the items "only numbers/symbols" filter. -/
def isJunkCh (c : Char) : Bool :=
  c.isDigit || isWsCh c || c == '.' || c == ',' || c == '-' || c == '=' || c == '*'

/-! ### A small regex AST and its backtracking matcher -/

/-- Regex abstract syntax, covering exactly the constructs appearing in the
source patterns.  `rep p lo hi lz` is `p{lo,hi}` over a character class
(`hi = none` meaning unbounded), lazy when `lz`; `repChunk ps lo` is
`(?:c1 c2 ...)+`-style repetition of a fixed-width sequence of classes;
`opt` is a greedy `?` over a sub-pattern; `group n a` captures the text
matched by `a` as group `n`; `eol` is `$`. -/
inductive Re where
  | eps : Re
  | cls (p : Char → Bool) : Re
  | rep (p : Char → Bool) (lo : Nat) (hi : Option Nat) (lz : Bool) : Re
  | repChunk (ps : List (Char → Bool)) (lo : Nat) : Re
  | seq (a b : Re) : Re
  | alt (a b : Re) : Re
  | opt (a : Re) : Re
  | group (n : Nat) (a : Re) : Re
  | eol : Re

/-- Captured groups: group index paired with the captured text, most recent
capture first (later captures of the same group shadow earlier ones, as in
Python). -/
abbrev Caps := List (Nat × List Char)

/-- Length of the maximal prefix of `s` drawn from class `p`. -/
def munch (p : Char → Bool) : List Char → Nat
  | [] => 0
  | c :: cs => if p c then munch p cs + 1 else 0

/-- Does `s` start with the fixed-width chunk `ps`? -/
def matchChunk : List (Char → Bool) → List Char → Bool
  | [], _ => true
  | _ :: _, [] => false
  | p :: ps, c :: cs => p c && matchChunk ps cs

/-- Number of consecutive occurrences of the chunk `ps` at the head of `s`
(with fuel; each occurrence consumes `ps.length ≥ 1` characters, so
`s.length` steps of fuel suffice). -/
def maxChunkRepsAux (ps : List (Char → Bool)) : Nat → List Char → Nat
  | 0, _ => 0
  | fuel + 1, s =>
      if ps.length > 0 && matchChunk ps s then
        maxChunkRepsAux ps fuel (s.drop ps.length) + 1
      else 0

def maxChunkReps (ps : List (Char → Bool)) (s : List Char) : Nat :=
  maxChunkRepsAux ps s.length s

/-- Try the given candidate consumption lengths in order, backtracking to
the next one when the continuation fails. -/
def tryLens {ρ : Type} (s : List Char) (c : Caps)
    (k : List Char → Caps → Option ρ) : List Nat → Option ρ
  | [] => none
  | L :: Ls =>
      match k (s.drop L) c with
      | some r => some r
      | none => tryLens s c k Ls

/-- Candidate lengths for `rep p lo hi lz` given maximal munch `m`:
greedy tries longest first, lazy shortest first. -/
def repLens (lo : Nat) (hi : Option Nat) (lz : Bool) (m : Nat) : List Nat :=
  let top := match hi with | none => m | some h => min h m
  if lo > top then []
  else if lz then (List.range (top - lo + 1)).map (· + lo)
  else (List.range (top - lo + 1)).map (fun i => top - i)

/-- Candidate lengths for `repChunk`: multiples of the chunk width, greedy. -/
def chunkLens (lo m L : Nat) : List Nat :=
  if lo > m then []
  else (List.range (m - lo + 1)).map (fun i => (m - i) * L)

/-- Backtracking matcher in continuation style.  `mre r s caps k` tries to
match `r` against a prefix of `s`; on success the continuation `k` receives
the remaining suffix and the updated captures.  Alternation prefers its left
branch, `opt` prefers matching, greedy repetition prefers longer
consumption — exactly Python `re`'s backtracking order. -/
def mre {ρ : Type} : Re → List Char → Caps → (List Char → Caps → Option ρ) → Option ρ
  | .eps, s, c, k => k s c
  | .cls p, s, c, k =>
      match s with
      | [] => none
      | x :: xs => if p x then k xs c else none
  | .rep p lo hi lz, s, c, k => tryLens s c k (repLens lo hi lz (munch p s))
  | .repChunk ps lo, s, c, k => tryLens s c k (chunkLens lo (maxChunkReps ps s) ps.length)
  | .seq a b, s, c, k => mre a s c (fun s1 c1 => mre b s1 c1 k)
  | .alt a b, s, c, k =>
      match mre a s c k with
      | some r => some r
      | none => mre b s c k
  | .opt a, s, c, k =>
      match mre a s c k with
      | some r => some r
      | none => k s c
  | .group n a, s, c, k =>
      mre a s c (fun s1 c1 => k s1 ((n, s.take (s.length - s1.length)) :: c1))
  | .eol, s, c, k => if s.isEmpty || s == ['\n'] then k s c else none

/-- `re.match`: anchored prefix match; returns captures and consumed length. -/
def reMatch (r : Re) (s : List Char) : Option (Caps × Nat) :=
  mre r s [] (fun s1 c => some (c, s.length - s1.length))

/-- `re.search`: first position (scanning left to right) whose suffix has a
prefix match; returns the captures. -/
def reSearch (r : Re) : List Char → Option Caps
  | [] => mre r [] [] (fun _ c => some c)
  | x :: xs =>
      match mre r (x :: xs) [] (fun _ c => some (c : Caps)) with
      | some c => some c
      | none => reSearch r xs

/-- `re.findall` worker: captures of all non-overlapping matches, scanning
left to right and resuming after each match (advancing one position after a
zero-width match, as Python does).  Structural recursion on explicit fuel;
every step shortens the scanned suffix, so `s.length + 1` steps suffice. -/
def findAllAux (r : Re) : Nat → List Char → List Caps
  | 0, _ => []
  | _ + 1, [] =>
      match mre r [] [] (fun _ c => some (c : Caps)) with
      | some c => [c]
      | none => []
  | fuel + 1, x :: xs =>
      match reMatch r (x :: xs) with
      | some (c, len) =>
          if len = 0 then c :: findAllAux r fuel xs
          else c :: findAllAux r fuel ((x :: xs).drop len)
      | none => findAllAux r fuel xs

/-- `re.findall`. -/
def findAll (r : Re) (s : List Char) : List Caps :=
  findAllAux r (s.length + 1) s

/-- Look up the most recent capture of group `n` (Python `match.group(n)`,
`none` when the group did not participate in the match). -/
def capGet (caps : Caps) (n : Nat) : Option (List Char) :=
  (caps.find? (fun e => e.1 == n)).map (·.2)

/-! ### Regex construction helpers -/

/-- Case-sensitive literal string. -/
def rstr (s : List Char) : Re :=
  s.foldr (fun ch r => Re.seq (Re.cls (fun c => c == ch)) r) Re.eps

/-- Case-insensitive literal string (`re.IGNORECASE`; ASCII). -/
def rstrCI (s : List Char) : Re :=
  s.foldr (fun ch r => Re.seq (Re.cls (fun c => c.toLower == ch.toLower)) r) Re.eps

def rseq (l : List Re) : Re := l.foldr Re.seq Re.eps

/-- Alternation with leftmost preference. -/
def ralts : List Re → Re
  | [] => Re.eps
  | [r] => r
  | r :: rs => Re.alt r (ralts rs)

/-! ### Text helpers shared by the extractors -/

/-- Python `str.strip()` (ASCII whitespace). -/
def stripWs (s : List Char) : List Char :=
  ((s.dropWhile isWsCh).reverse.dropWhile isWsCh).reverse

/-- Python `str.split(sep)` for a one-character separator. -/
def splitOnChar (sep : Char) : List Char → List (List Char)
  | [] => [[]]
  | c :: cs =>
      match splitOnChar sep cs with
      | [] => if c == sep then [[], []] else [[c]]
      | fld :: rest => if c == sep then [] :: fld :: rest else (c :: fld) :: rest

/-- Python `sub in s` (substring containment). -/
def hasSubstr : List Char → List Char → Bool
  | hay, pat =>
      match hay with
      | [] => pat.isEmpty
      | _ :: t => pat.isPrefixOf hay || hasSubstr t pat

/-- Python `str.lower()` (ASCII). -/
def lowerL (s : List Char) : List Char := s.map Char.toLower

/-- Remove the grouping separators `.` and `,` (the
`replace(".", "").replace(",", "")` chain). -/
def cleanNum (s : List Char) : List Char :=
  s.filter (fun c => !(c == '.' || c == ','))

/-- `Decimal`/`int` on the cleaned numeric strings of this code base: all
characters are digits, the value is the denoted natural number; the empty
string (or a stray non-digit) makes the Python parse raise, embedded as
`none`. -/
def parseDigits (s : List Char) : Option Nat :=
  if s.isEmpty then none
  else if s.all Char.isDigit then
    some (s.foldl (fun n c => n * 10 + (c.toNat - 48)) 0)
  else none

/-- Python `max` over a list of naturals (callers guard against `[]`). -/
def listMax : List Nat → Nat
  | [] => 0
  | x :: xs => max x (listMax xs)

end OcrService

namespace OcrService

/-! ### `extract_amount` (ocr_service.py lines 250-314) -/

/-- The OCR-error normalization at the top of `extract_amount`:
`replace('O','0').replace('o','0').replace('l','1').replace('I','1')`
followed by `replace(' ', '')`. -/
def normalizeAmountText (t : List Char) : List Char :=
  (t.map (fun c =>
      if c == 'O' || c == 'o' then '0'
      else if c == 'l' || c == 'I' then '1'
      else c)).filter (fun c => !(c == ' '))

/-- `[:\s]*` -/
def reColonWsStar : Re := Re.rep isColonWsCh 0 none false

/-- `\s*` -/
def reWsStar : Re := Re.rep isWsCh 0 none false

/-- `(?:Rp\.?|IDR)` under `re.IGNORECASE`. -/
def reRpIdr : Re :=
  ralts [rseq [rstrCI "Rp".toList, Re.opt (Re.cls (fun c => c == '.'))],
         rstrCI "IDR".toList]

/-- `([\d.,]+)` as capture group 1. -/
def reAmountGroup : Re := Re.group 1 (Re.rep isNumCh 1 none false)

/-- A priority pattern `KEYWORDS[:\s]*(?:Rp\.?|IDR)?\s*([\d.,]+)` for the
given keyword alternatives (all patterns are compiled with
`re.IGNORECASE`, so the paired casings in the source, e.g.
`Nominal|NOMINAL`, denote the same case-insensitive word). -/
def kwAmountPat (kws : List (List Char)) : Re :=
  rseq [ralts (kws.map rstrCI), reColonWsStar, Re.opt reRpIdr, reWsStar, reAmountGroup]

/-- `Total\s*(?:Bayar|Pembayaran|Belanja|Harga)` (case-insensitive). -/
def reTotalQualified : Re :=
  rseq [rstrCI "Total".toList, reWsStar,
        ralts [rstrCI "Bayar".toList, rstrCI "Pembayaran".toList,
               rstrCI "Belanja".toList, rstrCI "Harga".toList]]

/-- `Grand\s*Total` (case-insensitive). -/
def reGrandTotal : Re := rseq [rstrCI "Grand".toList, reWsStar, rstrCI "Total".toList]

/-- The eight `priority_patterns` of `extract_amount`, in source order.
The 4th/5th source entries differ only in casing, which `re.IGNORECASE`
erases, so they compile to the same matcher. -/
def priorityPatterns : List Re :=
  [ kwAmountPat ["Nominal".toList]
  , kwAmountPat ["Jumlah".toList]
  , kwAmountPat ["Amount".toList]
  , rseq [reTotalQualified, reColonWsStar, Re.opt reRpIdr, reWsStar, reAmountGroup]
  , rseq [reTotalQualified, reColonWsStar, Re.opt reRpIdr, reWsStar, reAmountGroup]
  , rseq [reGrandTotal, reColonWsStar, Re.opt reRpIdr, reWsStar, reAmountGroup]
  , kwAmountPat ["Total".toList]
  , rseq [reRpIdr, reWsStar, reAmountGroup]
  ]

/-- The two `fallback_patterns`: `([\d]{1,3}(?:[.,]\d{3})+)` and
`([\d]{4,})`. -/
def fallbackPatterns : List Re :=
  [ Re.group 1 (rseq [Re.rep isDigitCh 1 (some 3) false,
                      Re.repChunk [isDotCommaCh, isDigitCh, isDigitCh, isDigitCh] 1])
  , Re.group 1 (Re.rep isDigitCh 4 none false)
  ]

/-- One candidate of the per-pattern loop body: take group 1 of a match,
strip separators (`replace`+`strip`), parse as `Decimal`, keep the value
only when it lies inside `[lo, hi]` (the `try/except: continue` on a parse
failure yields no candidate). -/
def candOf (lo hi : Nat) (caps : Caps) : Option Nat :=
  match capGet caps 1 with
  | none => none
  | some g =>
      match parseDigits (stripWs (cleanNum g)) with
      | none => none
      | some a => if lo ≤ a ∧ a ≤ hi then some a else none

/-- The `amounts` list accumulated for one pattern. -/
def groupAmounts (ms : List Caps) (lo hi : Nat) : List Nat :=
  ms.filterMap (candOf lo hi)

/-- The per-pattern step: `if amounts: return max(amounts)`. -/
def stepGroup (ms : List Caps) (lo hi : Nat) : Option Nat :=
  let as := groupAmounts ms lo hi
  if as = [] then none else some (listMax as)

/-- The `for pattern in patterns:` loop with its early `return`: the first
pattern whose filtered candidate list is non-empty decides the result. -/
def firstGroupHit : List Re → List Char → Nat → Nat → Option Nat
  | [], _, _, _ => none
  | p :: ps, nt, lo, hi =>
      match stepGroup (findAll p nt) lo hi with
      | some a => some a
      | none => firstGroupHit ps nt lo hi

/-- `extract_amount` (lines 250-314): normalize, scan the priority patterns
with bound `[100, 10^11]`, then the fallback patterns with bound
`[1000, 10^11]`. -/
def extract_amount (t : List Char) : Option Nat :=
  let nt := normalizeAmountText t
  match firstGroupHit priorityPatterns nt 100 100000000000 with
  | some a => some a
  | none => firstGroupHit fallbackPatterns nt 1000 100000000000

/-- Filtered candidate list of the `i`-th pattern of a pattern list. -/
def candidatesAt (pats : List Re) (nt : List Char) (lo hi i : Nat) : List Nat :=
  match pats.get? i with
  | none => []
  | some p => groupAmounts (findAll p nt) lo hi

/-- Filtered candidate list of the `i`-th priority pattern on the
normalized input text. -/
def priorityCandidates (t : List Char) (i : Nat) : List Nat :=
  candidatesAt priorityPatterns (normalizeAmountText t) 100 100000000000 i

end OcrService

namespace OcrService

/-! ### `extract_date` (ocr_service.py lines 317-374) -/

/-- Calendar dates as plain year/month/day triples (`datetime.date`). -/
structure SDate where
  year : Nat
  month : Nat
  day : Nat
  deriving DecidableEq, Repr

/-- Gregorian leap year, as `datetime` implements it. -/
def isLeap (y : Nat) : Bool := y % 4 == 0 && (y % 100 != 0 || y % 400 == 0)

/-- Days in a month (`datetime`). -/
def daysInMonth (y m : Nat) : Nat :=
  if m == 2 then (if isLeap y then 29 else 28)
  else if m == 4 || m == 6 || m == 9 || m == 11 then 30
  else 31

/-- `date(year, month, day)` / `datetime.strptime` construction: succeeds
exactly on calendar-valid dates with `1 ≤ year ≤ 9999`, raising
(`none`) otherwise. -/
def mkValidDate (y m d : Nat) : Option SDate :=
  if 1 ≤ y ∧ y ≤ 9999 ∧ 1 ≤ m ∧ m ≤ 12 ∧ 1 ≤ d ∧ d ≤ daysInMonth y m
  then some ⟨y, m, d⟩ else none

/-- The `INDONESIAN_MONTHS` dictionary, in source order. -/
def indonesianMonths : List (List Char × Nat) :=
  [ ("jan".toList, 1), ("januari".toList, 1), ("january".toList, 1)
  , ("feb".toList, 2), ("februari".toList, 2), ("february".toList, 2)
  , ("mar".toList, 3), ("maret".toList, 3), ("march".toList, 3)
  , ("apr".toList, 4), ("april".toList, 4)
  , ("mei".toList, 5), ("may".toList, 5)
  , ("jun".toList, 6), ("juni".toList, 6), ("june".toList, 6)
  , ("jul".toList, 7), ("juli".toList, 7), ("july".toList, 7)
  , ("agu".toList, 8), ("agustus".toList, 8), ("aug".toList, 8), ("august".toList, 8)
  , ("sep".toList, 9), ("september".toList, 9)
  , ("okt".toList, 10), ("oktober".toList, 10), ("oct".toList, 10), ("october".toList, 10)
  , ("nov".toList, 11), ("november".toList, 11)
  , ("des".toList, 12), ("desember".toList, 12), ("dec".toList, 12), ("december".toList, 12)
  ]

/-- `INDONESIAN_MONTHS.get(key)`. -/
def monthLookup (key : List Char) : Option Nat :=
  (indonesianMonths.find? (fun e => e.1 == key)).map (·.2)

/-- The month-name date pattern
`(\d{1,2})\s+([A-Za-z]+)\s+(\d{2,4})` (`indo_pattern`). -/
def indoDatePat : Re :=
  rseq [ Re.group 1 (Re.rep isDigitCh 1 (some 2) false)
       , Re.rep isWsCh 1 none false
       , Re.group 2 (Re.rep isAlphaCh 1 none false)
       , Re.rep isWsCh 1 none false
       , Re.group 3 (Re.rep isDigitCh 2 (some 4) false) ]

/-- A numeric date pattern: three digit runs of the given widths separated
by the slash-or-dash class. -/
def numDatePat (w1 w2 w3 : Nat) : Re :=
  rseq [ Re.group 1 (Re.rep isDigitCh w1 (some w1) false)
       , Re.cls isSlashDashCh
       , Re.group 2 (Re.rep isDigitCh w2 (some w2) false)
       , Re.cls isSlashDashCh
       , Re.group 3 (Re.rep isDigitCh w3 (some w3) false) ]

/-- `strptime`'s `%y` two-digit-year mapping: `00-68 → 2000-2068`,
`69-99 → 1969-1999` (the POSIX pivot 69 — not the pivot 50 that the
month-name branch uses). -/
def strptimeY2 (y : Nat) : Nat := if y ≤ 68 then 2000 + y else 1900 + y

/-- The month-name branch of `extract_date`: pivot-50 two-digit-year
resolution, first-3-letters month lookup, calendar validation.  A match
that fails lookup or validation falls through (returns `none` here and the
numeric patterns are tried). -/
def extractDateIndo (t : List Char) : Option SDate :=
  match reSearch indoDatePat t with
  | none => none
  | some caps =>
      match capGet caps 1, capGet caps 2, capGet caps 3 with
      | some g1, some g2, some g3 =>
          match parseDigits g1, parseDigits g3 with
          | some day, some y0 =>
              let year := if y0 < 100 then (if y0 < 50 then 2000 + y0 else 1900 + y0) else y0
              match monthLookup ((lowerL g2).take 3) with
              | some month => mkValidDate year month day
              | none => none
          | _, _ => none
      | _, _, _ => none

/-- One numeric branch: search the pattern, map the three groups to
day/month/year according to the `strptime` format string, validate. -/
def extractDateNumeric (pat : Re) (toYmd : Nat → Nat → Nat → Nat × Nat × Nat)
    (t : List Char) : Option SDate :=
  match reSearch pat t with
  | none => none
  | some caps =>
      match capGet caps 1, capGet caps 2, capGet caps 3 with
      | some g1, some g2, some g3 =>
          match parseDigits g1, parseDigits g2, parseDigits g3 with
          | some a, some b, some c =>
              let (y, m, d) := toYmd a b c
              mkValidDate y m d
          | _, _, _ => none
      | _, _, _ => none

/-- `extract_date` (lines 334-374): the month-name grammar first, then the
three numeric grammars `DD/MM/YYYY`, `YYYY/MM/DD`, `DD/MM/YY` in order;
each candidate must form a calendar-valid date or the next grammar is
tried; `none` when nothing qualifies. -/
def extract_date (t : List Char) : Option SDate :=
  match extractDateIndo t with
  | some d => some d
  | none =>
      match extractDateNumeric (numDatePat 2 2 4) (fun a b c => (c, b, a)) t with
      | some d => some d
      | none =>
          match extractDateNumeric (numDatePat 4 2 2) (fun a b c => (a, b, c)) t with
          | some d => some d
          | none =>
              extractDateNumeric (numDatePat 2 2 2) (fun a b c => (strptimeY2 c, b, a)) t

end OcrService

namespace OcrService

/-! ### `extract_recipient` / `extract_merchant` (lines 377-426) -/

/-- `tujuan_pattern`:
`(?:Tujuan|Penerima|Kepada)[:\s]*\n?\s*([A-Za-z\s]+)` with `re.IGNORECASE`. -/
def tujuanPat : Re :=
  rseq [ ralts [rstrCI "Tujuan".toList, rstrCI "Penerima".toList, rstrCI "Kepada".toList]
       , reColonWsStar
       , Re.opt (Re.cls (fun c => c == '\n'))
       , reWsStar
       , Re.group 1 (Re.rep isAlphaWsCh 1 none false) ]

/-- Python `str.isdigit()` for ASCII text. -/
def isDigitStr (s : List Char) : Bool := !s.isEmpty && s.all Char.isDigit

/-- `extract_recipient` (lines 377-388): search the label pattern, strip the
captured name, keep its first line, and accept it when non-empty, longer
than 2 characters and not all digits. -/
def extract_recipient (t : List Char) : Option (List Char) :=
  match reSearch tujuanPat t with
  | none => none
  | some caps =>
      match capGet caps 1 with
      | none => none
      | some g =>
          let name0 := stripWs g
          let name := stripWs (name0.takeWhile (fun c => !(c == '\n')))
          if !name.isEmpty && name.length > 2 && !isDigitStr name then some name
          else none

/-- The transfer-classification keyword list of `extract_merchant`. -/
def bankTransferKeywords : List (List Char) :=
  [ "transaksi berhasil".toList, "transfer berhasil".toList, "tujuan".toList
  , "sumber dana".toList, "ref id".toList, "wondr".toList, "bni".toList
  , "bca".toList, "mandiri".toList, "bri".toList, "dana".toList
  , "gopay".toList, "ovo".toList ]

/-- The `bank_apps` list, in source order. -/
def bankApps : List (List Char) :=
  [ "wondr".toList, "bni".toList, "bca".toList, "mandiri".toList, "bri".toList
  , "dana".toList, "gopay".toList, "ovo".toList, "shopeepay".toList
  , "linkaja".toList ]

/-- Python `str.capitalize()` (ASCII): first character upper-cased, the
rest lower-cased. -/
def capitalizeL : List Char → List Char
  | [] => []
  | c :: cs => c.toUpper :: cs.map Char.toLower

/-- `bank.upper() if len(bank) <= 3 else bank.capitalize()`. -/
def canonBank (b : List Char) : List Char :=
  if b.length ≤ 3 then b.map Char.toUpper else capitalizeL b

/-- The skip words of the first-lines merchant scan. -/
def merchantLineDenyWords : List (List Char) :=
  [ "jl.".toList, "jalan".toList, "telp".toList, "phone".toList
  , "fax".toList, "transaksi".toList ]

/-- `re.match(r"^\d", line)`: the line starts with a digit. -/
def startsWithDigit : List Char → Bool
  | [] => false
  | c :: _ => c.isDigit

/-- The `for line in lines[:5]` scan of `extract_merchant`: skip lines
starting with a digit, lines containing an address/phone word, and lines
whose stripped length is outside `(5, 50)`; return the first survivor. -/
def scanFirstLines : List (List Char) → Option (List Char)
  | [] => none
  | l :: ls =>
      let line := stripWs l
      if startsWithDigit line then scanFirstLines ls
      else if merchantLineDenyWords.any (fun w => hasSubstr (lowerL line) w) then
        scanFirstLines ls
      else if line.length > 5 ∧ line.length < 50 then some line
      else scanFirstLines ls

/-- `extract_merchant` (lines 391-426): classify as a transfer via the
keyword list; transfers prefer `"Transfer ke <recipient>"`, then a
canonicalized bank/wallet brand; otherwise (and when no brand is found)
scan the first five lines. -/
def extract_merchant (t : List Char) : Option (List Char) :=
  let tl := lowerL t
  let fromLines := scanFirstLines ((splitOnChar '\n' (stripWs t)).take 5)
  if bankTransferKeywords.any (fun kw => hasSubstr tl kw) then
    match extract_recipient t with
    | some r => some ("Transfer ke ".toList ++ r)
    | none =>
        match bankApps.find? (fun b => hasSubstr tl b) with
        | some b => some (canonBank b)
        | none => fromLines
  else fromLines

end OcrService

namespace OcrService

/-! ### `extract_items` (lines 429-545) -/

/-- A line item as the source builds it (`name`, `quantity`, `unit_price`,
`total_price`); `Decimal` prices are embedded as `Nat`. -/
structure LineItem where
  name : List Char
  quantity : Nat
  unit_price : Option Nat
  total_price : Nat
  deriving DecidableEq, Repr

/-- The `skip_keywords` deny list, in source order. -/
def skipKeywords : List (List Char) :=
  [ "total".toList, "subtotal".toList, "sub total".toList, "grand total".toList
  , "pajak".toList, "tax".toList, "ppn".toList, "pb1".toList
  , "service".toList, "diskon".toList, "discount".toList, "tunai".toList
  , "cash".toList, "debit".toList, "credit".toList, "kartu".toList
  , "kembalian".toList, "change".toList, "bayar".toList, "payment".toList
  , "tanggal".toList, "date".toList, "waktu".toList, "time".toList
  , "kasir".toList, "cashier".toList, "nota".toList, "receipt".toList
  , "struk".toList, "terima kasih".toList, "thank you".toList
  , "member".toList, "customer".toList, "pelanggan".toList, "no.".toList
  , "telp".toList, "phone".toList, "alamat".toList, "address".toList
  , "jl.".toList, "jalan".toList, "rp".toList, "idr".toList
  , "---".toList, "===".toList, "***".toList, "qty".toList
  , "harga".toList, "jumlah".toList ]

/-- `pattern1 = r'^(.+?)\s{2,}([\d.,]+)$'` — name, a gap of two or more
spaces, a trailing price. -/
def itemPat1 : Re :=
  rseq [ Re.group 1 (Re.rep isDotCh 1 none true)
       , Re.rep isWsCh 2 none false
       , Re.group 2 (Re.rep isNumCh 1 none false)
       , Re.eol ]

/-- `pattern2 = r'^(\d+)\s*[xX]\s*(.+?)\s*[@]\s*([\d.,]+)\s*[=]?\s*([\d.,]+)?$'`
— qty `x` name `@` unit price, optionally `= total`. -/
def itemPat2 : Re :=
  rseq [ Re.group 1 (Re.rep isDigitCh 1 none false)
       , reWsStar
       , Re.cls (fun c => c == 'x' || c == 'X')
       , reWsStar
       , Re.group 2 (Re.rep isDotCh 1 none true)
       , reWsStar
       , Re.cls (fun c => c == '@')
       , reWsStar
       , Re.group 3 (Re.rep isNumCh 1 none false)
       , reWsStar
       , Re.rep (fun c => c == '=') 0 (some 1) false
       , reWsStar
       , Re.opt (Re.group 4 (Re.rep isNumCh 1 none false))
       , Re.eol ]

/-- `pattern3 = r'^(.+?)\s+(\d+)\s*[@xX]\s*([\d.,]+)$'` — name, qty,
`@`-or-`x`, unit price. -/
def itemPat3 : Re :=
  rseq [ Re.group 1 (Re.rep isDotCh 1 none true)
       , Re.rep isWsCh 1 none false
       , Re.group 2 (Re.rep isDigitCh 1 none false)
       , reWsStar
       , Re.cls (fun c => c == '@' || c == 'x' || c == 'X')
       , reWsStar
       , Re.group 3 (Re.rep isNumCh 1 none false)
       , Re.eol ]

/-- `pattern4 = r'^(.+?)\s+(?:Rp\.?|IDR)\s*([\d.,]+)$'` (`re.IGNORECASE`)
— name, currency marker, price. -/
def itemPat4 : Re :=
  rseq [ Re.group 1 (Re.rep isDotCh 1 none true)
       , Re.rep isWsCh 1 none false
       , reRpIdr
       , reWsStar
       , Re.group 2 (Re.rep isNumCh 1 none false)
       , Re.eol ]

/-- The acceptance guard shared by the four grammar blocks:
`100 <= total_price <= 100000000 and len(name) > minName` (the source
uses `> 2` in patterns 1 and 4 and `> 1` in patterns 2 and 3). -/
def acceptItem (minName : Nat) (name : List Char) (qty : Nat)
    (unit : Option Nat) (total : Nat) : Option LineItem :=
  if 100 ≤ total ∧ total ≤ 100000000 ∧ name.length > minName then
    some ⟨name, qty, unit, total⟩
  else none

/-- Pattern-1 block: on a match, strip the name, clean-parse the price and
accept when `100 ≤ price ≤ 100_000_000` and the name is longer than 2
characters; any failure yields nothing (and the caller falls through to the
next pattern, exactly as the code does when `continue` is not reached). -/
def pattern1Args (lc : List Char) : Option (List Char × Nat) :=
  match reMatch itemPat1 lc with
  | none => none
  | some (caps, _) =>
      match capGet caps 1, capGet caps 2 with
      | some g1, some g2 =>
          (match parseDigits (cleanNum g2) with
           | none => none
           | some price => some (stripWs g1, price))
      | _, _ => none

def tryPattern1 (lc : List Char) : Option LineItem :=
  match pattern1Args lc with
  | none => none
  | some (name, price) => acceptItem 2 name 1 none price

/-- Pattern-2 block: qty from group 1, name from group 2, unit price from
group 3; the total is group 4 when present and non-empty after cleaning,
otherwise `unit_price * qty`; accept when `100 ≤ total ≤ 100_000_000` and
the name is longer than 1 character. -/
def pattern2Args (lc : List Char) : Option (List Char × Nat × Nat × Nat) :=
  match reMatch itemPat2 lc with
  | none => none
  | some (caps, _) =>
      match capGet caps 1, capGet caps 2, capGet caps 3 with
      | some g1, some g2, some g3 =>
          (match parseDigits g1, parseDigits (cleanNum g3) with
           | some qty, some unitPrice =>
               let total :=
                 match capGet caps 4 with
                 | none => unitPrice * qty
                 | some g4 =>
                     match parseDigits (cleanNum g4) with
                     | some v => v
                     | none => unitPrice * qty
               some (stripWs g2, qty, unitPrice, total)
           | _, _ => none)
      | _, _, _ => none

def tryPattern2 (lc : List Char) : Option LineItem :=
  match pattern2Args lc with
  | none => none
  | some (name, qty, unitPrice, total) => acceptItem 1 name qty (some unitPrice) total

/-- Pattern-3 block: name, qty, unit price; total is `unit_price * qty`;
accept when `100 ≤ total ≤ 100_000_000` and the name is longer than 1
character. -/
def pattern3Args (lc : List Char) : Option (List Char × Nat × Nat) :=
  match reMatch itemPat3 lc with
  | none => none
  | some (caps, _) =>
      match capGet caps 1, capGet caps 2, capGet caps 3 with
      | some g1, some g2, some g3 =>
          (match parseDigits g2, parseDigits (cleanNum g3) with
           | some qty, some unitPrice => some (stripWs g1, qty, unitPrice)
           | _, _ => none)
      | _, _, _ => none

def tryPattern3 (lc : List Char) : Option LineItem :=
  match pattern3Args lc with
  | none => none
  | some (name, qty, unitPrice) => acceptItem 1 name qty (some unitPrice) (unitPrice * qty)

/-- Pattern-4 block: name and currency-prefixed price; accept when
`100 ≤ price ≤ 100_000_000` and the name is longer than 2 characters. -/
def pattern4Args (lc : List Char) : Option (List Char × Nat) :=
  match reMatch itemPat4 lc with
  | none => none
  | some (caps, _) =>
      match capGet caps 1, capGet caps 2 with
      | some g1, some g2 =>
          (match parseDigits (cleanNum g2) with
           | none => none
           | some price => some (stripWs g1, price))
      | _, _ => none

def tryPattern4 (lc : List Char) : Option LineItem :=
  match pattern4Args lc with
  | none => none
  | some (name, price) => acceptItem 2 name 1 none price

/-- The loop body of `extract_items` for one line: the three skip filters,
then the four grammar blocks in source order.  A block that matches and
validates appends its item and moves to the next line (`continue`); a block
that fails to match or to validate falls through to the next block. -/
def processLine (line : List Char) : Option LineItem :=
  let lc := stripWs line
  let ll := lowerL lc
  if lc = [] ∨ lc.length < 3 then none
  else if ∃ kw ∈ skipKeywords, hasSubstr ll kw then none
  else if lc.all isJunkCh then none
  else
    match tryPattern1 lc with
    | some it => some it
    | none =>
        match tryPattern2 lc with
        | some it => some it
        | none =>
            match tryPattern3 lc with
            | some it => some it
            | none => tryPattern4 lc

/-- `extract_items` (lines 429-545): split the stripped text into lines and
collect the per-line results in order. -/
def extract_items (t : List Char) : List LineItem :=
  (splitOnChar '\n' (stripWs t)).filterMap processLine

end OcrService

namespace OcrService

/-! ### `extract_tax_and_service` / `extract_subtotal` (lines 548-609) -/

/-- The two tax patterns (the text is lower-cased before searching). -/
def taxPatterns : List Re :=
  [ rseq [ ralts [rstr "ppn".toList, rstr "pb1".toList, rstr "tax".toList,
                  rstr "pajak".toList]
         , reColonWsStar, Re.group 1 (Re.rep isNumCh 1 none false) ]
  , rseq [ ralts [rstr "ppn".toList, rstr "pb1".toList, rstr "tax".toList,
                  rstr "pajak".toList]
         , reWsStar, Re.rep isDigitCh 1 none false
         , Re.cls (fun c => c == '%')
         , reColonWsStar, Re.group 1 (Re.rep isNumCh 1 none false) ] ]

/-- The two service-charge patterns. -/
def servicePatterns : List Re :=
  [ rseq [ ralts [rstr "service".toList, rstr "servis".toList, rstr "sc".toList]
         , reColonWsStar, Re.group 1 (Re.rep isNumCh 1 none false) ]
  , rseq [ ralts [rstr "service".toList, rstr "servis".toList]
         , reWsStar, Re.rep isDigitCh 1 none false
         , Re.cls (fun c => c == '%')
         , reColonWsStar, Re.group 1 (Re.rep isNumCh 1 none false) ] ]

/-- The pattern loop of `extract_tax_and_service`, with the mutable
variable made explicit as the accumulator `acc`: a successfully parsed
match is assigned to the variable *before* range-validation; the loop
`break`s only when the value passes `0 < v < 10^7`, so an out-of-range
assignment survives into the returned value when no later pattern
overwrites it. -/
def scanKeywordValue (tl : List Char) (acc : Option Nat) : List Re → Option Nat
  | [] => acc
  | p :: ps =>
      match reSearch p tl with
      | none => scanKeywordValue tl acc ps
      | some caps =>
          match capGet caps 1 with
          | none => scanKeywordValue tl acc ps
          | some g =>
              match parseDigits (cleanNum g) with
              | none => scanKeywordValue tl acc ps
              | some v =>
                  if 0 < v ∧ v < 10000000 then some v
                  else scanKeywordValue tl (some v) ps

/-- `extract_tax_and_service` (lines 548-589): returns `(tax, service)`. -/
def extract_tax_and_service (t : List Char) : Option Nat × Option Nat :=
  let tl := lowerL t
  (scanKeywordValue tl none taxPatterns, scanKeywordValue tl none servicePatterns)

/-- The subtotal pattern
`(?:sub\s*total|subtotal)[:\s]*(?:Rp\.?|IDR)?\s*([\d.,]+)` with
`re.IGNORECASE`. -/
def subtotalPat : Re :=
  rseq [ ralts [ rseq [rstrCI "sub".toList, reWsStar, rstrCI "total".toList]
               , rstrCI "subtotal".toList ]
       , reColonWsStar, Re.opt reRpIdr, reWsStar
       , Re.group 1 (Re.rep isNumCh 1 none false) ]

/-- `extract_subtotal` (lines 592-609): first match, accepted only inside
`[100, 10^11]` (here the `return` really is guarded by the bound). -/
def extract_subtotal (t : List Char) : Option Nat :=
  match reSearch subtotalPat t with
  | none => none
  | some caps =>
      match capGet caps 1 with
      | none => none
      | some g =>
          match parseDigits (cleanNum g) with
          | none => none
          | some v => if 100 ≤ v ∧ v ≤ 100000000000 then some v else none

/-! ### The orchestrators (lines 616-715)

`process_receipt_image` performs OCR and then builds the result dictionary;
we embed the post-OCR part (`process_ocr_text`), taking the recognized text
as input.  `date.today()` is an explicit `today` parameter; the float
confidence is an exact rational. -/

/-- The result dictionary built by `process_receipt_image`
(schema `OCRResult`). -/
structure OCRRes where
  amount : Option Nat
  merchant_name : Option (List Char)
  transaction_date : Option SDate
  items : List LineItem
  subtotal : Option Nat
  tax : Option Nat
  service_charge : Option Nat
  raw_text : Option (List Char)
  confidence : Rat
  receipt_url : Option (List Char)
  success : Bool
  message : List Char
  ocr_provider : Option (List Char)
  deriving DecidableEq, Repr

/-- Python `str(n)` for naturals. -/
def natToChars (n : Nat) : List Char := (Nat.repr n).toList

/-- The text-processing part of `process_receipt_image` (lines 622-676),
from the point where the OCR provider has produced `text`.  `if not text:`
short-circuits exactly on the empty string; otherwise all extractors run
and the result is assembled, with `transaction_date or date.today()`
defaulting the date and the confidence computed from provider, success and
items. -/
def process_ocr_text (text : List Char) (provider : List Char)
    (receipt_url : Option (List Char)) (today : SDate) : OCRRes :=
  if text.isEmpty then
    { amount := none, merchant_name := none, transaction_date := some today
    , items := [], subtotal := none, tax := none, service_charge := none
    , raw_text := none, confidence := 0, receipt_url := receipt_url
    , success := false
    , message := "Could not extract text from image".toList
    , ocr_provider := some provider }
  else
    let amount := extract_amount text
    let items := extract_items text
    let ts := extract_tax_and_service text
    let success := amount.isSome
    let conf0 : Rat :=
      if provider = "google_vision".toList ∧ success then 9/10
      else if success then 7/10 else 0
    let confidence := if items.isEmpty then conf0 else min (conf0 + 1/10) 1
    { amount := amount
    , merchant_name := extract_merchant text
    , transaction_date := some ((extract_date text).getD today)
    , items := items
    , subtotal := extract_subtotal text
    , tax := ts.1
    , service_charge := ts.2
    , raw_text := some (text.take 1000)
    , confidence := confidence
    , receipt_url := receipt_url
    , success := success
    , message :=
        if !items.isEmpty then
          "Extracted ".toList ++ natToChars items.length ++ " items".toList
        else if success then "Data extracted successfully".toList
        else "Could not extract amount from receipt".toList
    , ocr_provider := some provider }

/-- The result dictionary built by the legacy `process_receipt`. -/
structure LegacyRes where
  amount : Option Nat
  merchant_name : Option (List Char)
  transaction_date : SDate
  raw_text : Option (List Char)
  confidence : Rat
  receipt_url : Option (List Char)
  success : Bool
  message : List Char
  deriving DecidableEq, Repr

/-- `process_receipt` (lines 696-715): the text-only entry point; the
transaction date falls back to `date.today()` (the `today` parameter). -/
def process_receipt (text : List Char) (receipt_url : Option (List Char))
    (today : SDate) : LegacyRes :=
  let amount := extract_amount text
  let success := amount.isSome
  { amount := amount
  , merchant_name := extract_merchant text
  , transaction_date := (extract_date text).getD today
  , raw_text := if text.isEmpty then none else some (text.take 500)
  , confidence := if success then 8/10 else 0
  , receipt_url := receipt_url
  , success := success
  , message :=
      if success then "Data extracted successfully".toList
      else "Could not extract amount from receipt".toList }

end OcrService

namespace OcrService

/-! ## Helper lemmas -/

theorem listMax_append (a b : List Nat) :
    listMax (a ++ b) = max (listMax a) (listMax b) := by
  induction a with
  | nil => simp [listMax]
  | cons x xs ih => simp [listMax, ih, Nat.max_assoc]

theorem groupAmounts_append (ms ex : List Caps) (lo hi : Nat) :
    groupAmounts (ms ++ ex) lo hi = groupAmounts ms lo hi ++ groupAmounts ex lo hi := by
  simp [groupAmounts, List.filterMap_append]

theorem stepGroup_eq (ms : List Caps) (lo hi : Nat) :
    stepGroup ms lo hi =
      if groupAmounts ms lo hi = [] then none
      else some (listMax (groupAmounts ms lo hi)) := rfl

theorem candidatesAt_nil (nt : List Char) (lo hi i : Nat) :
    candidatesAt [] nt lo hi i = [] := by
  cases i <;> rfl

theorem candidatesAt_cons_zero (p : Re) (ps : List Re) (nt : List Char) (lo hi : Nat) :
    candidatesAt (p :: ps) nt lo hi 0 = groupAmounts (findAll p nt) lo hi := rfl

theorem candidatesAt_cons_succ (p : Re) (ps : List Re) (nt : List Char)
    (lo hi i : Nat) :
    candidatesAt (p :: ps) nt lo hi (i + 1) = candidatesAt ps nt lo hi i := rfl

/-- The pattern loop returns the maximum of the first pattern whose
filtered candidate list is non-empty. -/
theorem firstGroupHit_eq_of_first (pats : List Re) (nt : List Char) (lo hi : Nat) :
    ∀ i, (∀ j, j < i → candidatesAt pats nt lo hi j = []) →
      candidatesAt pats nt lo hi i ≠ [] →
      firstGroupHit pats nt lo hi = some (listMax (candidatesAt pats nt lo hi i)) := by
  induction pats with
  | nil =>
      intro i _ hcur
      exact absurd (candidatesAt_nil nt lo hi i) hcur
  | cons p ps ih =>
      intro i hprev hcur
      cases i with
      | zero =>
          rw [candidatesAt_cons_zero] at hcur ⊢
          have hstep : stepGroup (findAll p nt) lo hi
              = some (listMax (groupAmounts (findAll p nt) lo hi)) := by
            rw [stepGroup_eq, if_neg hcur]
          simp only [firstGroupHit, hstep]
      | succ n =>
          have h0 : groupAmounts (findAll p nt) lo hi = [] := by
            have := hprev 0 (Nat.succ_pos n)
            rwa [candidatesAt_cons_zero] at this
          have hstep : stepGroup (findAll p nt) lo hi = none := by
            rw [stepGroup_eq, if_pos h0]
          rw [candidatesAt_cons_succ] at hcur ⊢
          have hprev2 : ∀ j, j < n → candidatesAt ps nt lo hi j = [] := by
            intro j hj
            have := hprev (j + 1) (Nat.succ_lt_succ hj)
            rwa [candidatesAt_cons_succ] at this
          simp only [firstGroupHit, hstep]
          exact ih n hprev2 hcur

/-! ## Claims -/

/-- C1 (corrected): `extract_amount` does *not* pool the candidates of all
priority pattern groups — it returns inside the loop.  What holds is: for
each priority group in order, all case-insensitive matches are collected
and filtered to `[100, 10^11]`, and the result is the maximum over the
candidates of the **first** group that retains any candidate (later groups
are never reached). -/
theorem c1_first_nonempty_group_decides (t : List Char) (i : Nat)
    (hprev : ∀ j, j < i → priorityCandidates t j = [])
    (hcur : priorityCandidates t i ≠ []) :
    extract_amount t = some (listMax (priorityCandidates t i)) := by
  have h := firstGroupHit_eq_of_first priorityPatterns (normalizeAmountText t)
    100 100000000000 i hprev hcur
  simp only [extract_amount, h]
  rfl

/-- Witness for C1's theorem at a concrete input: on `"JUMLAH: 500"`
group 0 retains nothing and group 1 retains `[500]`, so the result is
`500`. -/
theorem c1_witness :
    (∀ j, j < 1 → priorityCandidates "JUMLAH: 500".toList j = []) ∧
    priorityCandidates "JUMLAH: 500".toList 1 ≠ [] ∧
    extract_amount "JUMLAH: 500".toList
      = some (listMax (priorityCandidates "JUMLAH: 500".toList 1)) := by
  refine ⟨?_, by decide, ?_⟩
  · intro j hj
    interval_cases j
    decide
  · exact c1_first_nonempty_group_decides "JUMLAH: 500".toList 1
      (by intro j hj; interval_cases j; decide) (by decide)

/-- C1 counterexample: on `"JUMLAH: 200\nRp 500.000"` the `Jumlah` group
(priority index 1) retains `[200]` and returns it, although the `Rp` group
(priority index 7) retains the larger valid candidate `500000`; the claimed
max over all groups combined would be `500000`, but the code returns
`200`. -/
theorem c1_counterexample :
    extract_amount "JUMLAH: 200\nRp 500.000".toList = some 200 ∧
    priorityCandidates "JUMLAH: 200\nRp 500.000".toList 7 = [500000] ∧
    extract_amount "JUMLAH: 200\nRp 500.000".toList ≠ some 500000 := by
  refine ⟨by decide, by decide, by decide⟩

/-- C2 (corrected): appending text with further valid candidates can
*decrease* the result, because a higher-priority pattern group may capture
only the new, smaller candidate.  What holds is the max-of-candidates
tie-break *within one pattern group*: extending the match list of a group
never decreases that group's returned maximum. -/
theorem c2_group_max_monotone (ms extra : List Caps) (lo hi a : Nat)
    (h : stepGroup ms lo hi = some a) :
    ∃ b, stepGroup (ms ++ extra) lo hi = some b ∧ a ≤ b := by
  rw [stepGroup_eq] at h
  by_cases hc : groupAmounts ms lo hi = []
  · rw [if_pos hc] at h
    exact absurd h (by simp)
  · rw [if_neg hc] at h
    have ha : a = listMax (groupAmounts ms lo hi) := (Option.some_inj.mp h).symm
    refine ⟨listMax (groupAmounts (ms ++ extra) lo hi), ?_, ?_⟩
    · rw [stepGroup_eq, if_neg ?_]
      rw [groupAmounts_append]
      intro hcontra
      exact hc (List.append_eq_nil.mp hcontra).1
    · rw [ha, groupAmounts_append, listMax_append]
      exact Nat.le_max_left _ _

/-- Witness for C2's theorem at concrete match lists: extending the group
candidates `["200"]` with `["500"]` keeps the result defined and does not
decrease it. -/
theorem c2_witness :
    ∃ b, stepGroup ([[(1, "200".toList)]] ++ [[(1, "500".toList)]])
        100 100000000000 = some b ∧ 200 ≤ b :=
  c2_group_max_monotone [[(1, "200".toList)]] [[(1, "500".toList)]]
    100 100000000000 200 (by decide)

/-- C2 counterexample: `extract_amount "Rp 500.000" = 500000`, but
appending `"\nJUMLAH: 200"` — which contains the additional valid
candidate `200` — drops the result to `200`, because the `Jumlah` group
outranks the `Rp` group and the loop returns early. -/
theorem c2_counterexample :
    extract_amount "Rp 500.000".toList = some 500000 ∧
    extract_amount ("Rp 500.000".toList ++ "\nJUMLAH: 200".toList) = some 200 ∧
    ¬ (500000 : Nat) ≤ 200 := by
  refine ⟨by decide, by decide, by decide⟩

end OcrService

namespace OcrService

theorem acceptItem_bounds {mn : Nat} {name : List Char} {qty : Nat}
    {unit : Option Nat} {total : Nat} {it : LineItem}
    (h : acceptItem mn name qty unit total = some it) :
    mn < it.name.length ∧ 100 ≤ it.total_price ∧ it.total_price ≤ 100000000 := by
  unfold acceptItem at h
  split_ifs at h with hc
  cases h
  exact ⟨hc.2.2, hc.1, hc.2.1⟩

theorem tryPattern1_bounds {lc : List Char} {it : LineItem}
    (h : tryPattern1 lc = some it) :
    1 < it.name.length ∧ 100 ≤ it.total_price ∧ it.total_price ≤ 100000000 := by
  unfold tryPattern1 at h
  cases ha : pattern1Args lc with
  | none => rw [ha] at h; exact Option.noConfusion h
  | some a =>
      rw [ha] at h
      obtain ⟨name, price⟩ := a
      have hb := acceptItem_bounds h
      exact ⟨by omega, hb.2.1, hb.2.2⟩

theorem tryPattern2_bounds {lc : List Char} {it : LineItem}
    (h : tryPattern2 lc = some it) :
    1 < it.name.length ∧ 100 ≤ it.total_price ∧ it.total_price ≤ 100000000 := by
  unfold tryPattern2 at h
  cases ha : pattern2Args lc with
  | none => rw [ha] at h; exact Option.noConfusion h
  | some a =>
      rw [ha] at h
      obtain ⟨name, qty, unitPrice, total⟩ := a
      exact acceptItem_bounds h

theorem tryPattern3_bounds {lc : List Char} {it : LineItem}
    (h : tryPattern3 lc = some it) :
    1 < it.name.length ∧ 100 ≤ it.total_price ∧ it.total_price ≤ 100000000 := by
  unfold tryPattern3 at h
  cases ha : pattern3Args lc with
  | none => rw [ha] at h; exact Option.noConfusion h
  | some a =>
      rw [ha] at h
      obtain ⟨name, qty, unitPrice⟩ := a
      exact acceptItem_bounds h

theorem tryPattern4_bounds {lc : List Char} {it : LineItem}
    (h : tryPattern4 lc = some it) :
    1 < it.name.length ∧ 100 ≤ it.total_price ∧ it.total_price ≤ 100000000 := by
  unfold tryPattern4 at h
  cases ha : pattern4Args lc with
  | none => rw [ha] at h; exact Option.noConfusion h
  | some a =>
      rw [ha] at h
      obtain ⟨name, price⟩ := a
      have hb := acceptItem_bounds h
      exact ⟨by omega, hb.2.1, hb.2.2⟩

theorem processLine_bounds {line : List Char} {it : LineItem}
    (h : processLine line = some it) :
    1 < it.name.length ∧ 100 ≤ it.total_price ∧ it.total_price ≤ 100000000 := by
  simp only [processLine] at h
  split_ifs at h
  cases h1 : tryPattern1 (stripWs line) with
  | some x => rw [h1] at h; cases h; exact tryPattern1_bounds h1
  | none =>
      rw [h1] at h
      cases h2 : tryPattern2 (stripWs line) with
      | some x => rw [h2] at h; cases h; exact tryPattern2_bounds h2
      | none =>
          rw [h2] at h
          cases h3 : tryPattern3 (stripWs line) with
          | some x => rw [h3] at h; cases h; exact tryPattern3_bounds h3
          | none => rw [h3] at h; exact tryPattern4_bounds h

end OcrService

namespace OcrService

/-- C3 (corrected): the grammars are tried in the source order — the
two-or-more-space gap grammar (`pattern1`) **first**, then qty-x-name-@
(`pattern2`), then name-qty-@ (`pattern3`), then the currency-prefix
grammar (`pattern4`); there is no bare-numeral catch-all grammar.  The
first grammar that matches *and* validates produces the line's item, so
whenever the gap grammar accepts a filtered line, the later grammars are
never consulted; and a text never yields more items than it has lines. -/
theorem c3_gap_grammar_first (t line : List Char) (it : LineItem)
    (hlen : ¬ (stripWs line = [] ∨ (stripWs line).length < 3))
    (hkw : ¬ ∃ kw ∈ skipKeywords, hasSubstr (lowerL (stripWs line)) kw)
    (hjunk : (stripWs line).all isJunkCh = false)
    (hp1 : tryPattern1 (stripWs line) = some it) :
    processLine line = some it ∧
    (extract_items t).length ≤ (splitOnChar '\n' (stripWs t)).length := by
  constructor
  · simp only [processLine]
    rw [if_neg hlen, if_neg hkw, if_neg (by simp [hjunk]), hp1]
  · exact List.length_filterMap_le processLine (splitOnChar '\n' (stripWs t))

/-- Witness for C3's theorem: the line `"2x Kopi @ 70    700"` passes the
filters and the gap grammar accepts it (taking the whole head
`"2x Kopi @ 70"` as the item name), so it decides the line. -/
theorem c3_witness :
    processLine "2x Kopi @ 70    700".toList
      = some ⟨"2x Kopi @ 70".toList, 1, none, 700⟩ ∧
    (extract_items "2x Kopi @ 70    700".toList).length
      ≤ (splitOnChar '\n' (stripWs "2x Kopi @ 70    700".toList)).length :=
  c3_gap_grammar_first "2x Kopi @ 70    700".toList "2x Kopi @ 70    700".toList
    ⟨"2x Kopi @ 70".toList, 1, none, 700⟩
    (by decide) (by decide) (by decide) (by decide)

/-- C3 counterexample: on the qty-x-shaped line `"2x Kopi @ 70    700"`
the qty-x grammar itself matches and validates (it would produce
`{name := "Kopi", quantity := 2, unit_price := 70, total_price := 700}`),
yet the item actually produced comes from the *gap* grammar, which is
tried first — the source order is the reverse of the claimed one. -/
theorem c3_counterexample :
    extract_items "2x Kopi @ 70    700".toList
      = [⟨"2x Kopi @ 70".toList, 1, none, 700⟩] ∧
    tryPattern2 (stripWs "2x Kopi @ 70    700".toList)
      = some ⟨"Kopi".toList, 2, some 70, 700⟩ ∧
    extract_items "2x Kopi @ 70    700".toList
      ≠ [⟨"Kopi".toList, 2, some 70, 700⟩] := by
  refine ⟨by decide, by decide, by decide⟩

/-- C4 (corrected): every returned item's total price does lie in
`[100, 100_000_000]`, but the name-length guard differs by grammar — the
gap and currency grammars require length > 2 while the two qty grammars
require only length > 1 — so the guaranteed lower bound over all items is
`name.length > 1`; moreover a grammar match that fails validation falls
through to the *next grammar on the same line*, not to the next line. -/
theorem c4_item_bounds (t : List Char) (it : LineItem)
    (h : it ∈ extract_items t) :
    1 < it.name.length ∧ 100 ≤ it.total_price ∧ it.total_price ≤ 100000000 := by
  obtain ⟨l, _, hl⟩ := List.mem_filterMap.mp h
  exact processLine_bounds hl

/-- Witness for C4's theorem at a concrete extraction. -/
theorem c4_witness :
    1 < ("Nasi Goreng".toList : List Char).length ∧
    100 ≤ (25000 : Nat) ∧ (25000 : Nat) ≤ 100000000 :=
  c4_item_bounds "Nasi Goreng    25.000".toList
    ⟨"Nasi Goreng".toList, 1, none, 25000⟩ (by decide)

/-- C4 counterexample: `"2 x AB @ 100"` produces an item whose name
`"AB"` has length 2, refuting the claimed universal `name.length > 2`
(the qty grammar only requires `> 1`). -/
theorem c4_counterexample :
    extract_items "2 x AB @ 100".toList = [⟨"AB".toList, 2, some 100, 200⟩] ∧
    ¬ 2 < ("AB".toList : List Char).length := by
  refine ⟨by decide, by decide⟩

/-- C10 (corrected): the deny filter is substring-based — any line whose
lower-cased stripped form contains any deny keyword anywhere yields no
item, before any grammar is consulted.  (The claim's concrete example is
wrong, though: `"Kerupuk"` does not contain the keyword `"rp"` — the `r`
is followed by `u` — so a `"Kerupuk"` line is *not* excluded; see the
counterexample.) -/
theorem c10_deny_keyword_excludes (line kw : List Char)
    (hkw : kw ∈ skipKeywords)
    (hsub : hasSubstr (lowerL (stripWs line)) kw = true) :
    processLine line = none := by
  simp only [processLine]
  split_ifs with h1 h2 h3
  · rfl
  · rfl
  · rfl
  · exact absurd ⟨kw, hkw, hsub⟩ h2

/-- Witness for C10's theorem: `"Terpal"` really does contain `"rp"`, so
the line `"Terpal    15.000"` is excluded even though the gap grammar
would match and validate it. -/
theorem c10_witness : processLine "Terpal    15.000".toList = none :=
  c10_deny_keyword_excludes "Terpal    15.000".toList "rp".toList
    (by decide) (by decide)

/-- C10 counterexample: no deny keyword occurs in `"kerupuk    15.000"`
(in particular `"rp"` does not occur in `"kerupuk"`), and the line yields
a `LineItem` — the claim's assertion that a `"Kerupuk"` line yields no
item is false. -/
theorem c10_counterexample :
    extract_items "Kerupuk    15.000".toList
      = [⟨"Kerupuk".toList, 1, none, 15000⟩] ∧
    (∀ kw ∈ skipKeywords, hasSubstr (lowerL "kerupuk    15.000".toList) kw = false) := by
  refine ⟨by decide, by decide⟩

end OcrService

namespace OcrService

/-- C5 (corrected): on empty input the orchestrator short-circuits to a
failure result with amount, merchant, subtotal, tax and service charge
absent, no items, no raw text, confidence `0` and an explanatory message —
but the transaction-date field is **not** absent: it is filled with the
current date (`date.today()`), for any provider, receipt URL and current
date. -/
theorem c5_empty_input_result (provider : List Char) (url : Option (List Char))
    (today : SDate) :
    process_ocr_text [] provider url today =
      { amount := none, merchant_name := none, transaction_date := some today
      , items := [], subtotal := none, tax := none, service_charge := none
      , raw_text := none, confidence := 0, receipt_url := url, success := false
      , message := "Could not extract text from image".toList
      , ocr_provider := some provider } := rfl

/-- C5 counterexample: on empty input the transaction date is present
(today's date), not absent; and the one-character input `"x"` is not
short-circuited at all — it takes the normal path, producing a different
message and a populated raw-text field. -/
theorem c5_counterexample :
    (process_ocr_text [] "tesseract".toList none ⟨2025, 10, 12⟩).transaction_date
      ≠ none ∧
    (process_ocr_text "x".toList "tesseract".toList none ⟨2025, 10, 12⟩).message
      ≠ (process_ocr_text [] "tesseract".toList none ⟨2025, 10, 12⟩).message ∧
    (process_ocr_text "x".toList "tesseract".toList none ⟨2025, 10, 12⟩).raw_text
      = some "x".toList := by
  refine ⟨by decide, by decide, by decide⟩

/-- C6 (corrected): the pivot-50 two-digit-year rule holds only for the
month-name grammar (`"30 Okt 25" ↦ 2025`, `"30 Okt 55" ↦ 1955`); the short
numeric day/month/2-digit-year grammar goes through `strptime`'s `%y`,
whose pivot is 69, so `"10/05/19" ↦ 2019-05-10` (as the claim's example
says) but `"10/05/55" ↦ 2055-05-10`, not 1955. -/
theorem c6_two_digit_year_pivots :
    extract_date "10/05/19".toList = some ⟨2019, 5, 10⟩ ∧
    extract_date "10/05/55".toList = some ⟨2055, 5, 10⟩ ∧
    extract_date "30 Okt 25".toList = some ⟨2025, 10, 30⟩ ∧
    extract_date "30 Okt 55".toList = some ⟨1955, 10, 30⟩ := by
  refine ⟨by decide, by decide, by decide, by decide⟩

/-- C6 counterexample: under the claimed pivot-50 rule the numeric input
`"10/05/55"` would resolve to 1955-05-10 (55 ≥ 50 ⇒ 1900s); the code
returns 2055-05-10. -/
theorem c6_counterexample :
    extract_date "10/05/55".toList = some ⟨2055, 5, 10⟩ ∧
    extract_date "10/05/55".toList ≠ some ⟨1955, 5, 10⟩ := by
  refine ⟨by decide, by decide⟩

/-- C7 (code bug): the claim matches the evident intent (the source
comment says "Reasonable tax amount"), but the loop assigns the parsed
value to the result variable *before* range-validating it and only uses
the validation to decide whether to `break`; when the first pattern's
match is out of range and no later pattern matches, the out-of-range value
is returned.  On `"pajak: 99999999999"` the code returns
`tax = 99999999999`, far above the `< 10^7` bound the claim promises. -/
theorem c7_out_of_range_tax_leaks :
    extract_tax_and_service "pajak: 99999999999".toList
      = (some 99999999999, none) ∧
    ¬ (99999999999 : Nat) < 10000000 := by
  refine ⟨by decide, by decide⟩

/-- Every line accepted by the first-lines merchant scan has stripped
length strictly between 5 and 50. -/
theorem scanFirstLines_bound :
    ∀ {ls : List (List Char)} {m : List Char},
      scanFirstLines ls = some m → m.length ≤ 49 := by
  intro ls
  induction ls with
  | nil => intro m h; exact Option.noConfusion h
  | cons l ls ih =>
      intro m h
      simp only [scanFirstLines] at h
      split_ifs at h with h1 h2 h3
      · exact ih h
      · exact ih h
      · cases h; omega
      · exact ih h

/-- C8 (corrected): the 100-character bound fails on the labeled-recipient
path, which returns `"Transfer ke " ++ recipient` with the recipient
taken unbounded from the text.  What holds path-wise: every returned
merchant either carries the `"Transfer ke "` prefix (unbounded), or is at
most 49 characters (brand tokens are at most 9 characters, first-lines
winners are shorter than 50). -/
theorem c8_merchant_paths (t m : List Char)
    (h : extract_merchant t = some m) :
    (∃ r, m = "Transfer ke ".toList ++ r) ∨ m.length ≤ 49 := by
  simp only [extract_merchant] at h
  split_ifs at h with hb
  · cases hr : extract_recipient t with
    | some r =>
        rw [hr] at h
        cases h
        exact Or.inl ⟨r, rfl⟩
    | none =>
        rw [hr] at h
        cases hf : bankApps.find? (fun b => hasSubstr (lowerL t) b) with
        | some b =>
            rw [hf] at h
            cases h
            have hmem := List.mem_of_find?_eq_some hf
            right
            fin_cases hmem <;> decide
        | none =>
            rw [hf] at h
            exact Or.inr (scanFirstLines_bound h)
  · exact Or.inr (scanFirstLines_bound h)

/-- Witness for C8's theorem: `"dana top up"` is classified as a transfer,
has no labeled recipient, and resolves through the brand path to
`"Dana"`. -/
theorem c8_witness :
    (∃ r, "Dana".toList = "Transfer ke ".toList ++ r) ∨
    ("Dana".toList : List Char).length ≤ 49 :=
  c8_merchant_paths "dana top up".toList "Dana".toList (by decide)

/-- C8 counterexample: a transfer text whose labeled recipient is 101
characters long produces a merchant of 113 characters, beyond the claimed
100-character bound. -/
theorem c8_counterexample :
    extract_merchant ("Tujuan: ".toList ++ List.replicate 101 'A')
      = some ("Transfer ke ".toList ++ List.replicate 101 'A') ∧
    ("Transfer ke ".toList ++ List.replicate 101 'A').length = 113 ∧
    ¬ ("Transfer ke ".toList ++ List.replicate 101 'A').length ≤ 100 := by
  refine ⟨by decide, by decide, by decide⟩

/-- C9 (corrected): the extraction entry point is deterministic in the
text only up to the wall-clock date: when some date grammar matches the
text, the result is independent of the current date (hence identical
across runs); when none matches, the transaction-date field is
`date.today()`, so two runs on different days differ. -/
theorem c9_deterministic_when_date_found (text : List Char)
    (url : Option (List Char)) (d1 d2 dd : SDate)
    (h : extract_date text = some dd) :
    process_receipt text url d1 = process_receipt text url d2 := by
  simp only [process_receipt, h, Option.getD_some]

/-- Witness for C9's theorem: `"30 Okt 2025"` contains a date, so the two
runs agree whatever the current date is. -/
theorem c9_witness :
    process_receipt "30 Okt 2025".toList none ⟨2000, 1, 1⟩
      = process_receipt "30 Okt 2025".toList none ⟨2001, 2, 2⟩ :=
  c9_deterministic_when_date_found "30 Okt 2025".toList none
    ⟨2000, 1, 1⟩ ⟨2001, 2, 2⟩ ⟨2025, 10, 30⟩ (by decide)

/-- C9 counterexample: on a text with no extractable date, two runs made
on different days (different `date.today()` values) return different
results — the transaction-date field differs. -/
theorem c9_counterexample :
    extract_date "x".toList = none ∧
    process_receipt "x".toList none ⟨2025, 1, 1⟩
      ≠ process_receipt "x".toList none ⟨2025, 1, 2⟩ := by
  refine ⟨by decide, by decide⟩

end OcrService
